import Mathlib

/-!
Verification of the code-preparation and result-interpretation logic of the
python-sandbox frontend.  Source text is modelled as `List Char`; the
JavaScript string operations used by the code (trim, split on newline,
concatenation, the word-boundary regex test) are embedded as executable
functions on character lists.
-/

namespace PySandbox

/-- Whitespace characters removed by the JavaScript `String.prototype.trim`
(the ASCII subset relevant to source code; exotic Unicode spaces are not
modelled). -/
def wsChar (c : Char) : Bool :=
  c = ' ' || c = '\t' || c = '\n' || c = '\r' || c = '\x0b' || c = '\x0c'

/-- Word characters of the JavaScript regex class `\w`, namely
`[A-Za-z0-9_]`. -/
def isWordChar (c : Char) : Bool :=
  (c.isAlpha && c.toNat < 128) || c.isDigit || c = '_'

/-- Model of `userCode.trim()`: drop whitespace from the left. -/
def trimLeftWs (l : List Char) : List Char := l.dropWhile wsChar

/-- Model of `userCode.trim()`: drop whitespace from both ends. -/
def trimWs (l : List Char) : List Char :=
  ((trimLeftWs l).reverse.dropWhile wsChar).reverse

/-- Model of the JavaScript `split('\n')`: the result is always non-empty,
and joining the parts with a newline restores the input. -/
def splitNl : List Char → List (List Char)
  | [] => [[]]
  | c :: rest =>
    let r := splitNl rest
    if c = '\n' then [] :: r else (c :: r.headD []) :: r.tail

/-- Model of the JavaScript `join('\n')`. -/
def joinNl : List (List Char) → List Char
  | [] => []
  | [p] => p
  | p :: rest => p ++ '\n' :: joinNl rest

/-- One level of indentation, as used by `wrapCodeInMainFunction`:
four spaces prefixed to the line. -/
def indentLine (l : List Char) : List Char := "    ".toList ++ l

/-- The minimal no-op program produced for blank input. -/
def noopProgram : List Char := "def main():\n    pass\n".toList

/-- Embedding of `wrapCodeInMainFunction` (part_002 lines 103-109): trim the
code, return the no-op program when blank, otherwise indent every line of the
trimmed code by four spaces and prefix a `def main():` header. -/
def wrapCodeInMainFunction (userCode : List Char) : List Char :=
  let trimmedCode := trimWs userCode
  if trimmedCode = [] then noopProgram
  else
    "def main():\n".toList ++ joinNl ((splitNl trimmedCode).map indentLine) ++ ['\n']

/-- The characters of the token searched for by the regex `\breturn\b`. -/
def retChars : List Char := "return".toList

/-- Does the list start with the six characters of `return`? -/
def startsRet (l : List Char) : Bool := l.take 6 = retChars

/-- Is the position right after a leading `return` a word boundary
(end of input or a non-word character)? -/
def boundaryAfter (l : List Char) : Bool :=
  match (l.drop 6).head? with
  | some c => !isWordChar c
  | none => true

/-- Scan for a match of the regex `\breturn\b`.  The Boolean argument
records whether the previous character was a word character (so that the
leading `\b` can be decided). -/
def hasReturnTokenAux : Bool → List Char → Bool
  | _, [] => false
  | prevWord, c :: rest =>
    (!prevWord && startsRet (c :: rest) && boundaryAfter (c :: rest))
      || hasReturnTokenAux (isWordChar c) rest

/-- Embedding of the JavaScript test `/\breturn\b/.test(l)`: at the start of
the string there is no preceding word character. -/
def testReturnToken (l : List Char) : Bool := hasReturnTokenAux false l

/-- Is the character right before position `i` a word character?  Used to
state that an occurrence of `return` at position `i` sits inside a longer
identifier on its left. -/
def wordBefore (l : List Char) : Nat → Bool
  | 0 => false
  | j + 1 =>
    match l.get? j with
    | some c => isWordChar c
    | none => false

/-- Is the character right after the six characters of an occurrence at
position `i` a word character?  Used to state that the occurrence sits
inside a longer identifier on its right. -/
def wordAfter (l : List Char) (i : Nat) : Bool :=
  match l.get? (i + 6) with
  | some c => isWordChar c
  | none => false

/-- The two execution modes of the editor. -/
inductive ExecutionMode where
  | script
  | function
deriving DecidableEq

/-- Embedding of `prepareCodeForExecution` (part_002 lines 188-200): in
Script mode the code is sent unchanged unless the trimmed code matches
`\breturn\b`, in which case (and always in Function mode) it is wrapped in a
`main` function. -/
def prepareCodeForExecution (userCode : List Char) (mode : ExecutionMode) : List Char :=
  let hasReturnStatement := testReturnToken (trimWs userCode)
  match mode with
  | .script => if hasReturnStatement then wrapCodeInMainFunction userCode else userCode
  | .function => wrapCodeInMainFunction userCode

/-- Number of lines of a text, counting a trailing newline as a line
terminator rather than the start of an extra empty line; this is the count
a Python backend reports error line numbers against. -/
def lineCount (l : List Char) : Nat :=
  if l = [] then 0
  else l.count '\n' + (if l.getLast? = some '\n' then 0 else 1)

/-- A JSON value, as held in the `result` field of the backend response
(JavaScript numbers are modelled as integers; the claims never compute with
fractional values). -/
inductive Json where
  | null
  | bool (b : Bool)
  | num (n : Int)
  | str (s : String)
  | arr (elems : List Json)
  | obj (fields : List (String × Json))

mutual

/-- Element conversion inside `Array.prototype.toString`: null renders as
the empty string, nested arrays join recursively, objects print as
`[object Object]`. -/
def jsArrElem : Json → String
  | .null => ""
  | .bool b => cond b "true" "false"
  | .num n => toString n
  | .str s => s
  | .arr xs => jsArrJoin xs
  | .obj _ => "[object Object]"

/-- Comma join of `Array.prototype.toString`. -/
def jsArrJoin : List Json → String
  | [] => ""
  | [x] => jsArrElem x
  | x :: y :: rest => jsArrElem x ++ "," ++ jsArrJoin (y :: rest)

end

/-- Model of the JavaScript coercion `String(value)` for JSON values:
arrays join their elements with commas (null entries become empty), plain
objects print as `[object Object]`. -/
def jsStr : Json → String
  | .null => "null"
  | .bool b => cond b "true" "false"
  | .num n => toString n
  | .str s => s
  | .arr xs => jsArrJoin xs
  | .obj _ => "[object Object]"

/-- Model of `String(x)` where `x` may be `undefined` (out-of-bounds index
or missing object key). -/
def jsStrOpt : Option Json → String
  | none => "undefined"
  | some j => jsStr j

/-- JSON string escaping used by `JSON.stringify` (the common escapes). -/
def escapeJsonChar (c : Char) : List Char :=
  if c = '"' then ['\\', '"']
  else if c = '\\' then ['\\', '\\']
  else if c = '\n' then ['\\', 'n']
  else if c = '\t' then ['\\', 't']
  else if c = '\r' then ['\\', 'r']
  else [c]

/-- A JSON string literal with quotes, as printed by `JSON.stringify`. -/
def quoteJson (s : String) : String :=
  "\"" ++ String.mk (s.toList.foldr (fun c acc => escapeJsonChar c ++ acc) []) ++ "\""

/-- Two spaces of indentation per nesting level, as produced by
`JSON.stringify(value, null, 2)`. -/
def indentSp : Nat → String
  | 0 => ""
  | n + 1 => "  " ++ indentSp n

mutual

/-- Model of `JSON.stringify(value, null, 2)` at a given nesting level. -/
def jsonToText (lvl : Nat) : Json → String
  | .null => "null"
  | .bool b => cond b "true" "false"
  | .num n => toString n
  | .str s => quoteJson s
  | .arr [] => "[]"
  | .arr (x :: xs) =>
    "[\n" ++ jsonArrItems (lvl + 1) (x :: xs) ++ "\n" ++ indentSp lvl ++ "]"
  | .obj [] => "\x7b\x7d"
  | .obj (f :: fs) =>
    "\x7b\n" ++ jsonObjItems (lvl + 1) (f :: fs) ++ "\n" ++ indentSp lvl ++ "\x7d"

/-- The comma-and-newline separated items of a stringified array. -/
def jsonArrItems (lvl : Nat) : List Json → String
  | [] => ""
  | [x] => indentSp lvl ++ jsonToText lvl x
  | x :: y :: rest =>
    indentSp lvl ++ jsonToText lvl x ++ ",\n" ++ jsonArrItems lvl (y :: rest)

/-- The comma-and-newline separated entries of a stringified object. -/
def jsonObjItems (lvl : Nat) : List (String × Json) → String
  | [] => ""
  | [(k, v)] => indentSp lvl ++ quoteJson k ++ ": " ++ jsonToText lvl v
  | (k, v) :: f :: rest =>
    indentSp lvl ++ quoteJson k ++ ": " ++ jsonToText lvl v ++ ",\n"
      ++ jsonObjItems lvl (f :: rest)

end

example : jsonToText 0 (Json.obj [("a", Json.num 1)]) = "\x7b\n  \"a\": 1\n\x7d" := by decide
example : jsStr (Json.arr [Json.num 1, Json.null, Json.num 2]) = "1,,2" := by decide

/-- First-match lookup of a key in a JSON object, modelling JavaScript
property access (JSON objects have unique keys). -/
def lookupField : List (String × Json) → String → Option Json
  | [], _ => none
  | (k, v) :: rest, key => if k = key then some v else lookupField rest key

/-- Coerce a JSON value to an array, as the cast in `renderResult` assumes;
malformed payloads (where the JavaScript code would throw) are modelled by
the empty array, which no claim depends on. -/
def asArr : Json → List Json
  | .arr xs => xs
  | _ => []

/-- Coerce a JSON value to an object field list; malformed payloads are
modelled by the empty list, which no claim depends on. -/
def asFields : Json → List (String × Json)
  | .obj fs => fs
  | _ => []

/-- Property access with `Json.null` standing for a missing property. -/
def fieldOr (fields : List (String × Json)) (key : String) : Json :=
  (lookupField fields key).getD Json.null

/-- The fields of a `_type: "dataframe"` result, mirroring the
`DataFrameResult` interface of part_002 (lines 43-50). -/
structure DataFrameResult where
  data : List (List (String × Json))
  columns : List String
  index : List Json
  shape : List Json
  dtypes : List (String × String)

/-- Extraction of a `DataFrameResult` from the tagged object fields, as the
TypeScript cast in `renderResult` does. -/
def decodeDataFrame (fields : List (String × Json)) : DataFrameResult :=
  { data := (asArr (fieldOr fields "data")).map asFields
    columns := (asArr (fieldOr fields "columns")).map jsStr
    index := asArr (fieldOr fields "index")
    shape := asArr (fieldOr fields "shape")
    dtypes := (asFields (fieldOr fields "dtypes")).map (fun p => (p.1, jsStr p.2)) }

/-- The table produced by `renderDataFrame`: a shape caption, one header
cell per column carrying the declared dtype annotation (absent when the
dtype mapping lacks the column), the displayed data rows (index cell plus
one cell per column), and an optional truncation summary row. -/
structure RenderedTable where
  shapeText : String
  headers : List (String × Option String)
  rows : List (String × List String)
  summary : Option String
deriving DecidableEq

/-- The display cap on dataframe rows (`maxRows` in part_002 line 233). -/
def maxRows : Nat := 10

/-- One rendered data row of the table, from the row position and the row
object: the index cell `String(df.index[rowIdx])` and per-column cells
`String(row[col])`. -/
def dfRowRender (df : DataFrameResult) (p : Nat × List (String × Json)) :
    String × List String :=
  (jsStrOpt (df.index.get? p.1), df.columns.map (fun c => jsStrOpt (lookupField p.2 c)))

/-- Embedding of `renderDataFrame` (part_002 lines 232-282): display at most
`maxRows` rows, annotate each column header with its dtype, and append a
`... and N more rows` summary row exactly when the data has more than
`maxRows` rows. -/
def renderDataFrame (df : DataFrameResult) : RenderedTable :=
  { shapeText := jsStrOpt (df.shape.get? 0) ++ " × " ++ jsStrOpt (df.shape.get? 1)
    headers := df.columns.map (fun c => (c, (df.dtypes.lookup c)))
    rows := (df.data.take maxRows).enum.map (dfRowRender df)
    summary :=
      if df.data.length > maxRows then
        some ("... and " ++ toString (df.data.length - maxRows) ++ " more rows")
      else none }

/-- The fields of a `_type: "series"` result, mirroring the `SeriesResult`
interface of part_002 (lines 52-58). -/
structure SeriesResult where
  data : List (String × Json)
  name : Json
  dtype : Json
  index : List Json

/-- Extraction of a `SeriesResult` from the tagged object fields. -/
def decodeSeries (fields : List (String × Json)) : SeriesResult :=
  { data := asFields (fieldOr fields "data")
    name := fieldOr fields "name"
    dtype := fieldOr fields "dtype"
    index := asArr (fieldOr fields "index") }

/-- The list produced by `renderSeries`: a title (with the series name when
it is a non-empty string), the dtype caption, at most ten index-value
entries, and an optional truncation summary. -/
structure RenderedSeries where
  title : String
  dtypeText : String
  entries : List (String × String)
  summary : Option String
deriving DecidableEq

/-- Embedding of `renderSeries` (part_002 lines 284-314). -/
def renderSeries (s : SeriesResult) : RenderedSeries :=
  { title :=
      "📈 pandas Series " ++
        (match s.name with
         | .str n => if n = "" then "" else "(" ++ n ++ ")"
         | .null => ""
         | other => "(" ++ jsStr other ++ ")")
    dtypeText := jsStr s.dtype
    entries := (s.data.take maxRows).map (fun p => (p.1, jsStr p.2))
    summary :=
      if s.data.length > maxRows then
        some ("... and " ++ toString (s.data.length - maxRows) ++ " more items")
      else none }

/-- The image block produced by `renderImage`: the encoded payload used as
the image source and the pixel-dimensions and color-mode caption. -/
structure RenderedImage where
  src : String
  caption : String
deriving DecidableEq

/-- Embedding of `renderImage` (part_002 lines 316-336). -/
def renderImage (fields : List (String × Json)) : RenderedImage :=
  let size := asArr (fieldOr fields "size")
  { src := jsStr (fieldOr fields "data")
    caption := jsStrOpt (size.get? 0) ++ " × " ++ jsStrOpt (size.get? 1)
        ++ " (" ++ jsStr (fieldOr fields "mode") ++ ")" }

/-- The monospace block produced by `renderUnserializable`: the string
representation and the original type name caption. -/
structure RenderedUnser where
  value : String
  typeName : String
deriving DecidableEq

/-- Embedding of `renderUnserializable` (part_002 lines 338-351). -/
def renderUnserializable (fields : List (String × Json)) : RenderedUnser :=
  { value := jsStr (fieldOr fields "value")
    typeName := jsStr (fieldOr fields "type") }

/-- The rendering strategy selected for a `result` value. -/
inductive Rendered where
  | table (t : RenderedTable)
  | series (s : RenderedSeries)
  | image (i : RenderedImage)
  | unserializable (u : RenderedUnser)
  | generic (text : String)
deriving DecidableEq

/-- The text of the default JSON branch of `renderResult`:
`JSON.stringify(result, null, 2)` when the JavaScript typeof is object
(objects, arrays and null), otherwise `String(result)`. -/
def defaultRenderText (j : Json) : String :=
  match j with
  | .obj _ => jsonToText 0 j
  | .arr _ => jsonToText 0 j
  | .null => jsonToText 0 j
  | other => jsStr other

/-- Embedding of `renderResult` (part_002 lines 205-230): a non-null object
carrying a `_type` key dispatches on the four recognized tags; every other
value, and every unrecognized or non-string tag, falls through to the
default generic-JSON rendering. -/
def renderResult (j : Json) : Rendered :=
  match j with
  | .obj fields =>
    match lookupField fields "_type" with
    | some (.str t) =>
      if t = "dataframe" then .table (renderDataFrame (decodeDataFrame fields))
      else if t = "series" then .series (renderSeries (decodeSeries fields))
      else if t = "image" then .image (renderImage fields)
      else if t = "unserializable" then .unserializable (renderUnserializable fields)
      else .generic (defaultRenderText j)
    | some _ => .generic (defaultRenderText j)
    | none => .generic (defaultRenderText j)
  | _ => .generic (defaultRenderText j)

/-- Does `renderResult` recognize the `_type` tag of this value?  True
exactly when the value is an object whose `_type` property is one of the
four tagged-variant strings. -/
def recognizedTag (j : Json) : Bool :=
  match j with
  | .obj fields =>
    match lookupField fields "_type" with
    | some (.str t) =>
      t = "dataframe" || t = "series" || t = "image" || t = "unserializable"
    | _ => false
  | _ => false

/-- One visualization entry of the response (part_002 lines 36-41). -/
structure Visualization where
  type : String
  format : String
  data : String
  figure_number : Option Nat
deriving DecidableEq

/-- The image block rendered for one visualization entry (part_002 lines
903-920): matplotlib entries are labelled with their figure number,
defaulting to position + 1 (also when `figure_number` is 0, which is falsy
in JavaScript). -/
structure VizBlock where
  label : String
  formatTag : String
  src : String
deriving DecidableEq

/-- Rendering of the visualization at a given position in the sequence. -/
def renderViz (p : Nat × Visualization) : VizBlock :=
  let fig :=
    match p.2.figure_number with
    | some n => if n = 0 then p.1 + 1 else n
    | none => p.1 + 1
  { label :=
      if p.2.type = "matplotlib" then "📈 Matplotlib Figure " ++ toString fig
      else p.2.type
    formatTag := p.2.format
    src := p.2.data }

/-- The backend response held as view state (the `ApiResponse` interface of
part_002 lines 13-19; the `performance` metrics strip is rendered in a
separate column and is not part of the output panel list modelled here). -/
structure ApiResponse where
  stdout : String
  result : Option Json := none
  error : Option String := none
  visualizations : Option (List Visualization) := none

/-- One panel of the execution-output column. -/
inductive Panel where
  | errorPanel (text : String)
  | vizPanel (items : List VizBlock)
  | stdoutPanel (text : String)
  | resultPanel (r : Rendered)
  | noOutputNotice
deriving DecidableEq

/-- Truthiness of `apiResponse.error` (a set but empty error string is
falsy in JavaScript). -/
def truthyError (r : ApiResponse) : Bool :=
  match r.error with
  | some e => e ≠ ""
  | none => false

/-- Truthiness of `apiResponse.visualizations && length > 0`. -/
def hasViz (r : ApiResponse) : Bool :=
  match r.visualizations with
  | some vs => vs.length > 0
  | none => false

/-- The condition guarding the result panel: the result property is
present and is neither null nor undefined. -/
def hasResultValue (r : ApiResponse) : Bool :=
  match r.result with
  | some .null => false
  | some _ => true
  | none => false

/-- Embedding of the output panel list of `EditorPage` (part_002 lines
889-951), interpreted in the settled state (`isLoading` false): the error
panel when `error` is truthy, the visualization blocks when present and
non-empty, the stdout panel when `stdout` is truthy (so never for an empty
string), the result panel when a non-null result property is present, and
the no-output notice exactly when none of the others rendered. -/
def interpretPanels (r : ApiResponse) : List Panel :=
  (match r.error with
   | some e => if e = "" then [] else [Panel.errorPanel e]
   | none => []) ++
  (match r.visualizations with
   | some vs => if vs.length > 0 then [Panel.vizPanel (vs.enum.map renderViz)] else []
   | none => []) ++
  (if r.stdout = "" then [] else [Panel.stdoutPanel r.stdout]) ++
  (match r.result with
   | some .null => []
   | some j => [Panel.resultPanel (renderResult j)]
   | none => []) ++
  (if !truthyError r && r.stdout = "" && !hasViz r && !hasResultValue r then
    [Panel.noOutputNotice]
   else [])

/-- The outcome of endpoint resolution inside `handleSubmit`: either a POST
request is issued to a URL, or the submission stops with a reported
configuration error. -/
inductive SubmitAction where
  | issueRequest (url : String)
  | configError (message : String)
deriving DecidableEq

/-- Model of `haystack.includes(needle)`: does the needle occur as a
contiguous run of the haystack? -/
def containsRun (needle : List Char) : List Char → Bool
  | [] => needle = []
  | c :: rest => (c :: rest).take needle.length = needle || containsRun needle rest

/-- The local-development host test of `handleSubmit` (part_002 lines
530-533): `localhost`, `127.0.0.1`, or any hostname containing `.local`. -/
def isLocalDevHost (hostname : List Char) : Bool :=
  hostname = "localhost".toList || hostname = "127.0.0.1".toList ||
    containsRun (".local".toList) hostname

/-- The fixed local endpoint. -/
def localEndpoint : String := "http://localhost:5000/execute"

/-- The configuration-error message of part_002. -/
def configMessage : String :=
  "API URL not configured. For production, set NEXT_PUBLIC_FLASK_API_URL in your .env file."

/-- Embedding of the endpoint resolution of `handleSubmit` in part_002
(lines 526-548): local hosts use the fixed local endpoint; otherwise the
environment variable is read with a fallback to the empty string, and a
missing or empty value stops
the submission with the configuration error before any request is issued. -/
def resolveEndpoint (hostname : List Char) (env : Option String) : SubmitAction :=
  if isLocalDevHost hostname then .issueRequest localEndpoint
  else
    let apiUrl := env.getD ""
    if apiUrl = "" then .configError configMessage
    else .issueRequest apiUrl

/-- Embedding of the endpoint resolution of `handleSubmit` in part_001
(lines 123-145): local hosts use the fixed local endpoint; otherwise the
code appends the path suffix to `process.env.NEXT_PUBLIC_FLASK_API_URL`,
where a missing variable concatenates as the string `undefined`, so the
subsequent emptiness check can never fire. -/
def resolveEndpointLegacy (hostname : List Char) (env : Option String) : SubmitAction :=
  if isLocalDevHost hostname then .issueRequest localEndpoint
  else
    let apiUrl := (env.getD "undefined") ++ "/execute"
    if apiUrl = "" then .configError configMessage
    else .issueRequest apiUrl

example : renderResult (Json.obj [("_type", Json.str "mystery")])
    = Rendered.generic "\x7b\n  \"_type\": \"mystery\"\n\x7d" := by decide
example : interpretPanels { stdout := "" }
    = [Panel.noOutputNotice] := by decide
example : resolveEndpointLegacy ("my-app.vercel.app".toList) none
    = SubmitAction.issueRequest "undefined/execute" := by decide

example : wrapCodeInMainFunction ("x = 1".toList) = "def main():\n    x = 1\n".toList := by decide
example : prepareCodeForExecution ("print(3)".toList) .script = "print(3)".toList := by decide
example : prepareCodeForExecution ("return 5".toList) .script
    = "def main():\n    return 5\n".toList := by decide
example : testReturnToken ("x = returned".toList) = false := by decide
example : testReturnToken ("return_value = 2".toList) = false := by decide
example : testReturnToken ("  return 5".toList) = true := by decide
example : lineCount ("def main():\n    x\n".toList) = 2 := by decide
example : lineCount ("\nx".toList) = 2 := by decide
example : prepareCodeForExecution ("".toList) .script = "".toList := by decide

/-- A fifteen-row dataframe used to instantiate the truncation claim. -/
def dfFifteen : DataFrameResult :=
  { data := List.replicate 15 [("a", Json.num 1)]
    columns := ["a"]
    index := (List.range 15).map (fun n => Json.num (Int.ofNat n))
    shape := [Json.num 15, Json.num 1]
    dtypes := [("a", "int64")] }

/-- A ten-row dataframe used to instantiate the no-truncation claim at the
boundary. -/
def dfTen : DataFrameResult :=
  { data := List.replicate 10 [("a", Json.num 1)]
    columns := ["a"]
    index := (List.range 10).map (fun n => Json.num (Int.ofNat n))
    shape := [Json.num 10, Json.num 1]
    dtypes := [("a", "int64")] }

/-- A result value whose tag is not recognized by the interpreter. -/
def mysteryResult : Json := Json.obj [("_type", Json.str "mystery"), ("x", Json.num 1)]

/-- The stub backend response of the end-to-end scenario: empty stdout and
a one-key object result mapping `a` to `1`. -/
def stubResponse : ApiResponse :=
  { stdout := "", result := some (Json.obj [("a", Json.num 1)]) }

/-- A response carrying both a backend error and partial stdout. -/
def errAndStdoutResponse : ApiResponse :=
  { stdout := "partial output\n", error := some "ZeroDivisionError: division by zero" }

end PySandbox

namespace PySandbox

theorem splitNl_ne_nil (l : List Char) : splitNl l ≠ [] := by
  induction l with
  | nil => simp [splitNl]
  | cons c rest ih =>
    by_cases hc : c = '\n' <;> simp [splitNl, hc]

theorem splitNl_no_newline (l : List Char) : ∀ p ∈ splitNl l, '\n' ∉ p := by
  induction l with
  | nil =>
    intro p hp
    simp [splitNl] at hp
    simp [hp]
  | cons c rest ih =>
    intro p hp
    cases hs : splitNl rest with
    | nil => exact absurd hs (splitNl_ne_nil rest)
    | cons h t =>
      by_cases hc : c = '\n'
      · simp [splitNl, hs, hc] at hp
        rcases hp with rfl | rfl | hp'
        · simp
        · exact ih p (hs ▸ List.mem_cons_self p t)
        · exact ih p (hs ▸ List.mem_cons_of_mem h hp')
      · simp [splitNl, hs, hc] at hp
        rcases hp with rfl | hp'
        · intro hmem
          rcases List.mem_cons.mp hmem with hh | hh
          · exact hc hh.symm
          · exact ih h (hs ▸ List.mem_cons_self h t) hh
        · exact ih p (hs ▸ List.mem_cons_of_mem h hp')

theorem splitNl_of_no_newline (p : List Char) (h : '\n' ∉ p) : splitNl p = [p] := by
  induction p with
  | nil => rfl
  | cons c rest ih =>
    have hc : c ≠ '\n' := fun hcn => h (hcn ▸ List.mem_cons_self c rest)
    have hr : '\n' ∉ rest := fun hm => h (List.mem_cons_of_mem c hm)
    simp [splitNl, ih hr, hc]

theorem splitNl_append_nl (p r : List Char) (h : '\n' ∉ p) :
    splitNl (p ++ '\n' :: r) = p :: splitNl r := by
  induction p with
  | nil => simp [splitNl]
  | cons c p' ih =>
    have hc : c ≠ '\n' := fun hcn => h (hcn ▸ List.mem_cons_self c p')
    have hp' : '\n' ∉ p' := fun hm => h (List.mem_cons_of_mem c hm)
    simp [splitNl, ih hp', hc]

theorem splitNl_joinNl (parts : List (List Char)) (hne : parts ≠ [])
    (h : ∀ p ∈ parts, '\n' ∉ p) : splitNl (joinNl parts) = parts := by
  induction parts with
  | nil => exact absurd rfl hne
  | cons p rest ih =>
    cases rest with
    | nil => exact splitNl_of_no_newline p (h p (List.mem_cons_self ..))
    | cons q rest' =>
      have hj : joinNl (p :: q :: rest') = p ++ '\n' :: joinNl (q :: rest') := rfl
      rw [hj, splitNl_append_nl p _ (h p (List.mem_cons_self ..))]
      rw [ih (by simp) (fun x hx => h x (List.mem_cons_of_mem p hx))]

theorem joinNl_concat (ps : List (List Char)) (q : List Char) (hne : ps ≠ []) :
    joinNl (ps ++ [q]) = joinNl ps ++ '\n' :: q := by
  induction ps with
  | nil => exact absurd rfl hne
  | cons p rest ih =>
    cases rest with
    | nil => rfl
    | cons p' rest' =>
      have h1 : joinNl ((p :: p' :: rest') ++ [q])
          = p ++ '\n' :: joinNl ((p' :: rest') ++ [q]) := rfl
      rw [h1, ih (by simp)]
      simp [joinNl, List.append_assoc]

theorem count_nl_joinNl (ps : List (List Char)) (hne : ps ≠ [])
    (h : ∀ p ∈ ps, '\n' ∉ p) : (joinNl ps).count '\n' = ps.length - 1 := by
  induction ps with
  | nil => exact absurd rfl hne
  | cons p rest ih =>
    cases rest with
    | nil =>
      simp only [joinNl, List.length_singleton, Nat.sub_self]
      exact List.count_eq_zero.mpr (h p (List.mem_cons_self ..))
    | cons q rest' =>
      have h1 : joinNl (p :: q :: rest') = p ++ '\n' :: joinNl (q :: rest') := rfl
      rw [h1, List.count_append, List.count_cons]
      rw [List.count_eq_zero.mpr (h p (List.mem_cons_self ..))]
      rw [ih (by simp) (fun x hx => h x (List.mem_cons_of_mem p hx))]
      simp

theorem head?_dropWhile_not (p : Char → Bool) (l : List Char) :
    ∀ c, (l.dropWhile p).head? = some c → p c = false := by
  induction l with
  | nil => intro c hc; simp [List.dropWhile] at hc
  | cons a rest ih =>
    intro c hc
    by_cases ha : p a
    · rw [List.dropWhile_cons_of_pos ha] at hc
      exact ih c hc
    · rw [List.dropWhile_cons_of_neg ha] at hc
      simp at hc
      rw [← hc]
      exact Bool.eq_false_iff.mpr ha

theorem trimWs_getLast_not_ws (l : List Char) :
    ∀ c, (trimWs l).getLast? = some c → wsChar c = false := by
  intro c hc
  unfold trimWs at hc
  rw [List.getLast?_reverse] at hc
  exact head?_dropWhile_not wsChar _ c hc

theorem wsChar_not_word (c : Char) (h : wsChar c = true) : isWordChar c = false := by
  simp only [wsChar, Bool.or_eq_true, decide_eq_true_eq] at h
  rcases h with ((((h | h) | h) | h) | h) | h <;> subst h <;> decide

theorem trim_decomp (l : List Char) :
    ∃ w₁ w₂, l = w₁ ++ trimWs l ++ w₂ ∧
      (∀ c ∈ w₁, wsChar c = true) ∧ (∀ c ∈ w₂, wsChar c = true) := by
  refine ⟨l.takeWhile wsChar, ((trimLeftWs l).reverse.takeWhile wsChar).reverse, ?_, ?_, ?_⟩
  · have hm : trimLeftWs l
        = trimWs l ++ ((trimLeftWs l).reverse.takeWhile wsChar).reverse := by
      conv_lhs => rw [← List.reverse_reverse (trimLeftWs l)]
      conv_lhs =>
        rw [← List.takeWhile_append_dropWhile (p := wsChar) (l := (trimLeftWs l).reverse)]
      rw [List.reverse_append]
      rfl
    have hl : l = l.takeWhile wsChar ++ trimLeftWs l :=
      (List.takeWhile_append_dropWhile (p := wsChar) (l := l)).symm
    calc l = l.takeWhile wsChar ++ trimLeftWs l := hl
    _ = l.takeWhile wsChar
        ++ (trimWs l ++ ((trimLeftWs l).reverse.takeWhile wsChar).reverse) := by rw [← hm]
    _ = l.takeWhile wsChar ++ trimWs l
        ++ ((trimLeftWs l).reverse.takeWhile wsChar).reverse :=
      (List.append_assoc ..).symm
  · intro c hc
    exact List.mem_takeWhile_imp hc
  · intro c hc
    rw [List.mem_reverse] at hc
    exact List.mem_takeWhile_imp hc

theorem scan_sound (l : List Char) (p : Bool) (h : hasReturnTokenAux p l = true) :
    ∃ l₁ l₂, l = l₁ ++ retChars ++ l₂ ∧
      (l₁ = [] → p = false) ∧
      (∀ c, l₁.getLast? = some c → isWordChar c = false) ∧
      (∀ c, l₂.head? = some c → isWordChar c = false) := by
  induction l generalizing p with
  | nil => simp [hasReturnTokenAux] at h
  | cons c rest ih =>
    simp only [hasReturnTokenAux, Bool.or_eq_true, Bool.and_eq_true] at h
    rcases h with ⟨⟨hp, hs⟩, hb⟩ | h
    · have hp' : p = false := by simpa using hp
      have hs' : (c :: rest).take 6 = retChars := by
        simp only [startsRet] at hs
        exact of_decide_eq_true hs
      refine ⟨[], (c :: rest).drop 6, ?_, fun _ => hp', ?_, ?_⟩
      · conv_lhs => rw [← List.take_append_drop 6 (c :: rest)]
        rw [hs']
        simp
      · intro c' hc'
        simp at hc'
      · intro c' hc'
        simp only [boundaryAfter, hc'] at hb
        simpa using hb
    · obtain ⟨m₁, m₂, heq, hm0, hml, hmh⟩ := ih (isWordChar c) h
      refine ⟨c :: m₁, m₂, ?_, by simp, ?_, hmh⟩
      · rw [heq]
        rfl
      · intro c' hc'
        cases hm : m₁ with
        | nil =>
          subst hm
          rw [List.getLast?_singleton] at hc'
          have hcc : c' = c := by simpa using hc'.symm
          subst hcc
          exact hm0 rfl
        | cons a as =>
          subst hm
          rw [List.getLast?_cons_cons] at hc'
          exact hml c' hc'

theorem joinNl_cons_ne (a : List Char) (rest : List (List Char)) (h : rest ≠ []) :
    joinNl (a :: rest) = a ++ '\n' :: joinNl rest := by
  cases rest with
  | nil => exact absurd rfl h
  | cons x xs => rfl

theorem splitNl_length (l : List Char) : (splitNl l).length = l.count '\n' + 1 := by
  induction l with
  | nil => simp [splitNl]
  | cons c rest ih =>
    by_cases hc : c = '\n'
    · subst hc
      simp [splitNl, List.count_cons_self, ih]
    · have hlen : 1 ≤ (splitNl rest).length := by
        cases hs : splitNl rest with
        | nil => exact absurd hs (splitNl_ne_nil rest)
        | cons a t => simp
      have hcnt : (c :: rest).count '\n' = rest.count '\n' :=
        List.count_cons_of_ne (fun hne => hc hne.symm) rest
      simp only [splitNl, if_neg hc, List.length_cons, List.length_tail, hcnt, ih]
      omega

/-- C1: in Script mode, `prepareCodeForExecution` returns the raw code
unchanged when the trimmed code has no `\breturn\b` match, and returns
exactly the Function-mode result when it has one. -/
theorem claim1_script_return_dispatch (raw : List Char) :
    (testReturnToken (trimWs raw) = false → prepareCodeForExecution raw .script = raw) ∧
    (testReturnToken (trimWs raw) = true →
      prepareCodeForExecution raw .script = prepareCodeForExecution raw .function) := by
  constructor <;> intro h <;> simp [prepareCodeForExecution, h]

/-- Witness for C1 at the inputs `print(2)` (no return token) and
`return 5` (return token present). -/
theorem claim1_witness :
    prepareCodeForExecution ("print(2)".toList) .script = "print(2)".toList ∧
    prepareCodeForExecution ("return 5".toList) .script
      = prepareCodeForExecution ("return 5".toList) .function :=
  ⟨(claim1_script_return_dispatch ("print(2)".toList)).1 (by decide),
   (claim1_script_return_dispatch ("return 5".toList)).2 (by decide)⟩

/-- C2 counterexample: for the input consisting of a newline followed by
`x`, Function-mode preparation trims the leading blank line first, so the
output line count is 2 and not `lines(rawCode) + 1 = 3`. -/
theorem claim2_counterexample :
    lineCount (prepareCodeForExecution ("\nx".toList) ExecutionMode.function)
      ≠ lineCount ("\nx".toList) + 1 := by decide

/-- C2 amended: for every non-empty `rawCode` without leading or trailing
whitespace (so that the trim inside the wrapper leaves it unchanged),
Function-mode preparation produces a line count of `lines(rawCode) + 1`,
and every original line appears in the output indented by exactly one level
(four spaces); for general input the same holds relative to the trimmed
code, because `wrapCodeInMainFunction` trims before wrapping. -/
theorem claim2_amended (raw : List Char) (h0 : raw ≠ []) (ht : trimWs raw = raw) :
    lineCount (prepareCodeForExecution raw .function) = lineCount raw + 1 ∧
    ∀ p ∈ splitNl raw, indentLine p ∈ splitNl (prepareCodeForExecution raw .function) := by
  have hpf : prepareCodeForExecution raw .function = wrapCodeInMainFunction raw := rfl
  have hwrap : wrapCodeInMainFunction raw
      = "def main():\n".toList ++ joinNl ((splitNl raw).map indentLine) ++ ['\n'] := by
    unfold wrapCodeInMainFunction
    rw [ht, if_neg h0]
  have hpne : splitNl raw ≠ [] := splitNl_ne_nil raw
  have hmpne : (splitNl raw).map indentLine ≠ [] := by
    simp only [ne_eq, List.map_eq_nil_iff]
    exact hpne
  have hnonl : ∀ p ∈ (splitNl raw).map indentLine, '\n' ∉ p := by
    intro p hp
    obtain ⟨q, hq, rfl⟩ := List.mem_map.mp hp
    intro hmem
    rcases List.mem_append.mp hmem with hins | hinq
    · revert hins
      decide
    · exact splitNl_no_newline raw q hq hinq
  have hjoin : "def main():\n".toList ++ joinNl ((splitNl raw).map indentLine) ++ ['\n']
      = joinNl ("def main():".toList :: ((splitNl raw).map indentLine ++ [[]])) := by
    rw [joinNl_cons_ne _ _ (by simp),
        joinNl_concat ((splitNl raw).map indentLine) [] hmpne]
    have hhdr : "def main():\n".toList = "def main():".toList ++ ['\n'] := by decide
    rw [hhdr]
    simp [List.append_assoc]
  have hsplit : splitNl (wrapCodeInMainFunction raw)
      = "def main():".toList :: ((splitNl raw).map indentLine ++ [[]]) := by
    rw [hwrap, hjoin]
    apply splitNl_joinNl
    · simp
    · intro p hp
      rcases List.mem_cons.mp hp with rfl | hp'
      · decide
      · rcases List.mem_append.mp hp' with hp2 | hp2
        · exact hnonl p hp2
        · simp only [List.mem_singleton] at hp2
          subst hp2
          simp
  constructor
  · -- line count
    have hjcnt : (joinNl ((splitNl raw).map indentLine)).count '\n'
        = (splitNl raw).length - 1 := by
      rw [count_nl_joinNl _ hmpne hnonl, List.length_map]
    have hwne : wrapCodeInMainFunction raw ≠ [] := by
      rw [hwrap]
      intro hcontra
      have hd : "def main():\n".toList ≠ ([] : List Char) := by decide
      rw [List.append_assoc] at hcontra
      exact hd (List.append_eq_nil.mp hcontra).1
    have hwlast : (wrapCodeInMainFunction raw).getLast? = some '\n' := by
      rw [hwrap]
      exact List.getLast?_concat _
    have hwcnt : (wrapCodeInMainFunction raw).count '\n' = (splitNl raw).length + 1 := by
      rw [hwrap]
      rw [List.count_append, List.count_append, hjcnt]
      have hhc : ("def main():\n".toList).count '\n' = 1 := by decide
      have hsc : (['\n'] : List Char).count '\n' = 1 := by decide
      have hge : 1 ≤ (splitNl raw).length := by
        cases hs : splitNl raw with
        | nil => exact absurd hs hpne
        | cons a t => simp
      rw [hhc, hsc]
      omega
    have hrlast : raw.getLast? ≠ some '\n' := by
      intro hlast
      have hws := trimWs_getLast_not_ws raw '\n' (by rw [ht]; exact hlast)
      have : wsChar '\n' = true := by decide
      rw [this] at hws
      simp at hws
    have hrcnt : raw.count '\n' = (splitNl raw).length - 1 := by
      have := splitNl_length raw
      omega
    rw [hpf]
    unfold lineCount
    rw [if_neg hwne, if_neg h0, if_pos hwlast, if_neg hrlast, hwcnt, hrcnt]
    have hge : 1 ≤ (splitNl raw).length := by
      cases hs : splitNl raw with
      | nil => exact absurd hs hpne
      | cons a t => simp
    omega
  · -- every original line appears indented
    intro p hp
    rw [hpf, hsplit]
    exact List.mem_cons_of_mem _ (List.mem_append_left _ (List.mem_map_of_mem indentLine hp))

/-- Witness for C2 amended at a two-line input without surrounding
whitespace. -/
theorem claim2_witness :
    lineCount (prepareCodeForExecution ("a = 1\nb = 2".toList) ExecutionMode.function)
      = lineCount ("a = 1\nb = 2".toList) + 1 :=
  (claim2_amended ("a = 1\nb = 2".toList) (by decide) (by decide)).1

/-- C3 counterexample: on the empty string in Script mode,
`prepareCodeForExecution` returns the empty string unchanged, not the
minimal no-op program. -/
theorem claim3_counterexample :
    prepareCodeForExecution ([] : List Char) ExecutionMode.script ≠ noopProgram := by decide

/-- C3 amended: for empty or whitespace-only input, Function mode produces
the minimal no-op program, while Script mode returns the blank input
unchanged (the submit handler rejects blank input before `prepare` runs). -/
theorem claim3_amended (raw : List Char) (h : trimWs raw = []) :
    prepareCodeForExecution raw .function = noopProgram ∧
    prepareCodeForExecution raw .script = raw := by
  have hw : wrapCodeInMainFunction raw = noopProgram := by
    simp [wrapCodeInMainFunction, h]
  have ht : testReturnToken (trimWs raw) = false := by rw [h]; rfl
  exact ⟨by simp [prepareCodeForExecution, hw], by simp [prepareCodeForExecution, ht]⟩

/-- Witness for C3 amended at a whitespace-only input. -/
theorem claim3_witness :
    prepareCodeForExecution ("  \n ".toList) .function = noopProgram ∧
    prepareCodeForExecution ("  \n ".toList) .script = "  \n ".toList :=
  claim3_amended ("  \n ".toList) (by decide)

/-- C4: a dataframe with more than ten rows renders exactly ten data rows,
a summary row naming the number of remaining rows, and one header cell per
column annotated with its declared dtype. -/
theorem claim4_dataframe_truncation (df : DataFrameResult)
    (h : df.data.length > maxRows) :
    (renderDataFrame df).rows.length = maxRows ∧
    (renderDataFrame df).summary
      = some ("... and " ++ toString (df.data.length - maxRows) ++ " more rows") ∧
    (renderDataFrame df).headers = df.columns.map (fun c => (c, df.dtypes.lookup c)) := by
  refine ⟨?_, ?_, rfl⟩
  · simp [renderDataFrame]
    omega
  · simp [renderDataFrame, h]

/-- Witness for C4: a fifteen-row dataframe yields ten rendered rows and
the summary `... and 5 more rows`. -/
theorem claim4_witness :
    (renderDataFrame dfFifteen).rows.length = 10 ∧
    (renderDataFrame dfFifteen).summary = some "... and 5 more rows" := by
  have h := claim4_dataframe_truncation dfFifteen (by decide)
  exact ⟨h.1, h.2.1⟩

/-- C10: a dataframe with at most ten rows renders every row (in order,
with its index cell and per-column cells) and no summary row. -/
theorem claim10_dataframe_no_truncation (df : DataFrameResult)
    (h : df.data.length ≤ maxRows) :
    (renderDataFrame df).rows = df.data.enum.map (dfRowRender df) ∧
    (renderDataFrame df).rows.length = df.data.length ∧
    (renderDataFrame df).summary = none := by
  have ht : df.data.take maxRows = df.data := List.take_of_length_le h
  refine ⟨by simp [renderDataFrame, ht], by simp [renderDataFrame, ht], ?_⟩
  simp [renderDataFrame]
  omega

/-- Witness for C10 at the boundary: a ten-row dataframe renders ten rows
and no summary. -/
theorem claim10_witness :
    (renderDataFrame dfTen).summary = none ∧ (renderDataFrame dfTen).rows.length = 10 := by
  have h := claim10_dataframe_no_truncation dfTen (by decide)
  exact ⟨h.2.2, h.2.1⟩

/-- C5: any result value without a recognized `_type` tag (no tag at all,
a non-object value, a non-string tag, or an unrecognized tag string) is
rendered by the total default generic-JSON branch. -/
theorem claim5_unrecognized_tag_fallback (j : Json) (h : recognizedTag j = false) :
    renderResult j = Rendered.generic (defaultRenderText j) := by
  cases j with
  | obj fields =>
    cases hl : lookupField fields "_type" with
    | none => simp [renderResult, hl]
    | some v =>
      cases v with
      | str t =>
        simp only [recognizedTag, hl, Bool.or_eq_false_iff, decide_eq_false_iff_not] at h
        obtain ⟨⟨⟨h1, h2⟩, h3⟩, h4⟩ := h
        simp [renderResult, hl, h1, h2, h3, h4]
      | null => simp [renderResult, hl]
      | bool b => simp [renderResult, hl]
      | num n => simp [renderResult, hl]
      | arr xs => simp [renderResult, hl]
      | obj fs => simp [renderResult, hl]
  | null => rfl
  | bool b => rfl
  | num n => rfl
  | str s => rfl
  | arr xs => rfl

/-- Witness for C5 at a result tagged `mystery`. -/
theorem claim5_witness :
    renderResult mysteryResult = Rendered.generic (defaultRenderText mysteryResult) :=
  claim5_unrecognized_tag_fallback mysteryResult (by decide)

/-- C6: when the response carries a non-empty error and a non-empty stdout,
the interpreted output contains both the error panel with the error text
verbatim and the stdout panel; neither suppresses the other. -/
theorem claim6_error_and_stdout_panels (r : ApiResponse) (e : String)
    (he : r.error = some e) (hne : e ≠ "") (hs : r.stdout ≠ "") :
    Panel.errorPanel e ∈ interpretPanels r ∧
    Panel.stdoutPanel r.stdout ∈ interpretPanels r := by
  constructor <;> simp [interpretPanels, he, hne, hs, List.mem_append]

/-- Witness for C6 at a response with both an error and partial stdout. -/
theorem claim6_witness :
    Panel.errorPanel "ZeroDivisionError: division by zero" ∈ interpretPanels errAndStdoutResponse ∧
    Panel.stdoutPanel "partial output\n" ∈ interpretPanels errAndStdoutResponse :=
  claim6_error_and_stdout_panels errAndStdoutResponse _ rfl (by decide) (by decide)

/-- C7 code evaluation: at the stub response with empty stdout and a
one-key object result, the interpreted output is only the pretty-printed result
panel — no stdout panel of any kind appears, because the output guard
`apiResponse.stdout &&` is falsy for the empty string, which makes the
inner `No standard output.` fallback unreachable. -/
theorem claim7_code_evaluation :
    interpretPanels stubResponse
      = [Panel.resultPanel (Rendered.generic "\x7b\n  \"a\": 1\n\x7d")] := by decide

/-- C8 code evaluation: on a non-local host with the base URL unset, the
part_001 submit handler concatenates `undefined` and issues a request to
`undefined/execute` (its configuration-error guard can never fire), while
the part_002 handler reports the configuration error and issues no request;
on a local host both use the fixed local endpoint. -/
theorem claim8_code_evaluation :
    resolveEndpointLegacy ("example.com".toList) none
      = SubmitAction.issueRequest "undefined/execute" ∧
    resolveEndpoint ("example.com".toList) none
      = SubmitAction.configError configMessage ∧
    resolveEndpoint ("localhost".toList) none = SubmitAction.issueRequest localEndpoint ∧
    resolveEndpointLegacy ("localhost".toList) none
      = SubmitAction.issueRequest localEndpoint := by
  refine ⟨by decide, by decide, by decide, by decide⟩

/-- C9: the return-token scan matches only on word boundaries.  If every
occurrence of the characters `return` in the input has a word character
directly adjacent on at least one side (as in `returned` or
`return_value`), Script-mode preparation returns the input unchanged. -/
theorem claim9_word_boundary (raw : List Char)
    (h : ∀ i < raw.length, (raw.drop i).take 6 = retChars →
      wordBefore raw i = true ∨ wordAfter raw i = true) :
    prepareCodeForExecution raw .script = raw := by
  suffices hf : testReturnToken (trimWs raw) = false by
    simp [prepareCodeForExecution, hf]
  by_contra hcon
  rw [Bool.not_eq_false] at hcon
  obtain ⟨l₁, l₂, heq, hm0, hlast, hhead⟩ := scan_sound (trimWs raw) false hcon
  obtain ⟨w₁, w₂, hdec, hw1, hw2⟩ := trim_decomp raw
  have hraw : raw = w₁ ++ l₁ ++ retChars ++ (l₂ ++ w₂) := by
    conv_lhs => rw [hdec, heq]
    simp [List.append_assoc]
  have h6 : retChars.length = 6 := by decide
  have hlen : raw.length = (w₁ ++ l₁).length + 6 + (l₂ ++ w₂).length := by
    rw [hraw]
    simp [List.length_append, h6]
    omega
  have hi : (w₁ ++ l₁).length < raw.length := by omega
  have hocc : (raw.drop (w₁ ++ l₁).length).take 6 = retChars := by
    rw [hraw, List.append_assoc (w₁ ++ l₁), List.drop_left, ← h6, List.take_left]
  rcases h ((w₁ ++ l₁).length) hi hocc with hbef | haft
  · -- the scan matched with a non-word (or absent) character before it
    rcases List.eq_nil_or_concat (w₁ ++ l₁) with hA | ⟨B', b, hA⟩
    · rw [hA] at hbef
      simp [wordBefore] at hbef
    · rw [List.concat_eq_append] at hA
      have hAlen : (w₁ ++ l₁).length = B'.length + 1 := by rw [hA]; simp
      rw [hAlen] at hbef
      have hget : raw.get? B'.length = some b := by
        rw [hraw, hA]
        rw [List.get?_append (by simp), List.get?_append (by simp)]
        exact List.get?_concat_length B' b
      have hbw : isWordChar b = true := by
        simp only [wordBefore, hget] at hbef
        exact hbef
      have hnw : isWordChar b = false := by
        cases hl1 : l₁ with
        | nil =>
          rw [hl1, List.append_nil] at hA
          have hbmem : b ∈ w₁ := by rw [hA]; simp
          exact wsChar_not_word b (hw1 b hbmem)
        | cons x xs =>
          rcases List.eq_nil_or_concat (x :: xs) with hxs | ⟨L, y, hxs⟩
          · simp at hxs
          · rw [List.concat_eq_append] at hxs
            have hylast : l₁.getLast? = some y := by
              rw [hl1, hxs]
              exact List.getLast?_concat _
            have hAlast : (w₁ ++ l₁).getLast? = some b := by
              rw [hA]
              exact List.getLast?_concat _
            have hAlast' : (w₁ ++ l₁).getLast? = some y := by
              rw [List.getLast?_append, hylast]
              rfl
            rw [hAlast] at hAlast'
            have hyb : b = y := by simpa using hAlast'
            rw [hyb]
            exact hlast y hylast
      rw [hnw] at hbw
      simp at hbw
  · -- the scan matched with a non-word (or absent) character after it
    have hAr : (w₁ ++ l₁ ++ retChars).length = (w₁ ++ l₁).length + 6 := by
      simp [List.length_append, h6]
      omega
    have hgetB : raw.get? ((w₁ ++ l₁).length + 6) = (l₂ ++ w₂).head? := by
      rw [hraw]
      rw [List.get?_append_right hAr.le, hAr, Nat.sub_self, List.get?_zero]
    simp only [wordAfter, hgetB] at haft
    cases hB : (l₂ ++ w₂).head? with
    | none =>
      rw [hB] at haft
      simp at haft
    | some c' =>
      rw [hB] at haft
      simp only [] at haft
      have hnw : isWordChar c' = false := by
        cases hl2 : l₂ with
        | nil =>
          rw [hl2, List.nil_append] at hB
          cases hw2c : w₂ with
          | nil =>
            rw [hw2c] at hB
            simp at hB
          | cons a t =>
            rw [hw2c] at hB
            simp only [List.head?_cons, Option.some.injEq] at hB
            have hamem : a ∈ w₂ := by
              rw [hw2c]
              exact List.mem_cons_self a t
            rw [← hB]
            exact wsChar_not_word a (hw2 a hamem)
        | cons x xs =>
          have hx : l₂.head? = some c' := by
            rw [hl2] at hB ⊢
            rw [List.cons_append, List.head?_cons] at hB
            rw [List.head?_cons]
            exact hB
          exact hhead c' hx
      rw [hnw] at haft
      simp at haft

/-- Witness for C9: an input whose only occurrences of the characters
`return` lie inside the identifiers `returned` and `return_value` passes
through Script mode unchanged. -/
theorem claim9_witness :
    prepareCodeForExecution ("x = returned + return_value".toList) .script
      = "x = returned + return_value".toList :=
  claim9_word_boundary ("x = returned + return_value".toList) (by decide)

end PySandbox
